import Mathlib

/-! # torcat: a netcat-style relay over Tor

A shallow embedding of `main.go`.  The program is a thin command-line shim:
`init` parses two flags, `main` authenticates to the Tor control port, then
either publishes an onion service and accepts one connection (listen mode) or
dials a destination (dial mode), and finally bridges the connection to
standard input/output with two `io.Copy` goroutines started by `runIO`.

Library calls whose result depends on the outside world (the control port,
the Tor network, the key generator) are fields of an environment record
`Env`; `main` is a total function from an environment to the ordered list of
externally visible actions it performs and the exit status of the process.
-/

namespace Torcat

/-! ## Go library pieces used by `main` -/

/-- The two failure kinds of `strconv.Atoi` (`ErrSyntax` and `ErrRange`). -/
inductive NumError where
  | invalid
  | range
  deriving DecidableEq, Repr

/-- The digit loop of `strconv.ParseUint(s, 10, 64)`, one byte at a time from
the left with the value `n` read so far: a byte that is not in `0..9` is a
syntax error; otherwise a value that no longer fits 64 bits (`n` at or above
the cutoff `maxUint64/10 + 1`, or `n*10 + d` above `maxUint64`) is a range
error.  The first of the two to occur is the one reported. -/
def parseUintLoop : List Char → Nat → Except NumError Nat
  | [], n => .ok n
  | c :: cs, n =>
    if ¬ (48 ≤ c.toNat ∧ c.toNat ≤ 57) then .error .invalid
    else if (2 ^ 64 - 1) / 10 + 1 ≤ n then .error .range
    else if 2 ^ 64 - 1 < n * 10 + (c.toNat - 48) then .error .range
    else parseUintLoop cs (n * 10 + (c.toNat - 48))

/-- The function `strconv.Atoi` on a 64-bit platform, as `strconv.ParseInt(s,
10, 0)` computes it: the empty string is a syntax error; one leading `+` or
`-` is taken off; the rest goes through `ParseUint` (empty: syntax error),
whose error is the result; a value outside the range of `int` is a range
error.  The shortcut `Atoi` takes for fewer than 19 bytes gives the same
results: so few digits cannot overflow. -/
def atoi (s : String) : Except NumError Int :=
  let parseInt (neg : Bool) (ds : List Char) : Except NumError Int :=
    match ds with
    | [] => .error .invalid
    | _ :: _ =>
      match parseUintLoop ds 0 with
      | .error err => .error err
      | .ok un =>
        if ¬ neg ∧ 2 ^ 63 ≤ un then .error .range
        else if neg ∧ 2 ^ 63 < un then .error .range
        else if neg then .ok (-(un : Int)) else .ok (un : Int)
  match s.data with
  | [] => .error .invalid
  | c :: cs =>
    if c = '+' then parseInt false cs
    else if c = '-' then parseInt true cs
    else parseInt false (c :: cs)

/-- Decimal digits of a natural number, least significant first, as `%d`
prints them (the fuel bounds the number of digits: twenty are enough for
every 64-bit value). -/
def decimalRev : Nat → Nat → List Char
  | 0, _ => []
  | fuel + 1, n =>
    Char.ofNat (48 + n % 10) :: (if n / 10 = 0 then [] else decimalRev fuel (n / 10))

/-- The verb `%d` applied to an unsigned value. -/
def fmtNat (n : Nat) : String := ⟨(decimalRev 20 n).reverse⟩

/-- The verb `%d` applied to an `int`. -/
def fmtInt (i : Int) : String :=
  if i < 0 then "-" ++ fmtNat i.natAbs else fmtNat i.natAbs

/-- The call `fmt.Sprintf("%s:%d", addr, port)`. -/
def sprintfDest (addr : String) (port : Int) : String := addr ++ ":" ++ fmtInt port

/-- Whether `sub` occurs in `s` as a contiguous run of characters. -/
def occursIn (sub s : String) : Bool :=
  s.data.tails.any (fun t => sub.data.isPrefixOf t)

/-! ## Flag parsing (`init`) -/

/-- The package-level variables set by `init`, and what `flag.Args()` would
return: the command-line arguments left after the flags. -/
structure Flags where
  control : String
  listen : Nat
  positional : List String
  deriving DecidableEq, Repr

/-- The defaults registered by `flag.StringVar` and `flag.UintVar`. -/
def defaultFlags : Flags := ⟨"9051", 0, []⟩

/-- Split `name=value` at the first `=` that is not the first character
(the loop of `parseOne` starting at index 1). -/
def splitEq : List Char → List Char → List Char × Option (List Char)
  | acc, [] => (acc.reverse, none)
  | acc, c :: cs => if c = '=' then (acc.reverse, some cs) else splitEq (c :: acc) cs

/-- The look-up of a flag name among the registered flags; `-h` and `-help`
print the usage instead. -/
def lookupFlag (name : String) : Except String Unit :=
  if name = "control" ∨ name = "l" then .ok ()
  else if name = "help" ∨ name = "h" then .error "flag: help requested"
  else .error ("flag provided but not defined: -" ++ name)

/-- The method `Set` of the value of a registered flag; `parseUint` stands
for `strconv.ParseUint(value, 0, 64)`. -/
def setFlag (parseUint : String → Option Nat) (name value : String) (f : Flags) :
    Except String Flags :=
  if name = "control" then .ok { f with control := value }
  else
    match parseUint value with
    | some n => .ok { f with listen := n }
    | none => .error ("invalid value \"" ++ value ++ "\" for flag -" ++ name)

/-- The loop of `FlagSet.Parse` over `os.Args[1:]`, one `parseOne` per
iteration, for a flag set with no boolean flags: parsing stops at the first
argument that is not of the form `-name`, after `--`, or at the end. Every
iteration consumes an argument, so a fuel of the number of arguments is
enough. An error makes the process exit before `main` runs. -/
def parseLoop (parseUint : String → Option Nat) :
    Nat → List String → Flags → Except String Flags
  | 0, rest, f => .ok { f with positional := rest }
  | _ + 1, [], f => .ok { f with positional := [] }
  | fuel + 1, s :: rest, f =>
    match s.data with
    | [] => .ok { f with positional := s :: rest }
    | [_] => .ok { f with positional := s :: rest }
    | c0 :: c1 :: cs =>
      if c0 ≠ '-' then .ok { f with positional := s :: rest }
      else if c1 = '-' ∧ cs = [] then .ok { f with positional := rest }
      else
        let name := if c1 = '-' then cs else c1 :: cs
        match name with
        | [] => .error ("bad flag syntax: " ++ s)
        | n0 :: ns =>
          if n0 = '-' ∨ n0 = '=' then .error ("bad flag syntax: " ++ s)
          else
            let (nm, value) := splitEq [n0] ns
            match lookupFlag ⟨nm⟩ with
            | .error e => .error e
            | .ok _ =>
              match value, rest with
              | some v, _ =>
                match setFlag parseUint ⟨nm⟩ ⟨v⟩ f with
                | .error e => .error e
                | .ok g => parseLoop parseUint fuel rest g
              | none, [] => .error ("flag needs an argument: -" ++ String.mk nm)
              | none, v :: rest2 =>
                match setFlag parseUint ⟨nm⟩ v f with
                | .error e => .error e
                | .ok g => parseLoop parseUint fuel rest2 g

/-- The function `init` of `main.go`: register the two flags with their
defaults and `flag.Parse()`. -/
def init (parseUint : String → Option Nat) (argv : List String) : Except String Flags :=
  parseLoop parseUint argv.length argv defaultFlags

/-! ## The environment and the observable behaviour of `main` -/

deriving instance DecidableEq for Except

/-- Results of the calls `main` makes into the outside world.  An error is the
text of the Go `error` value (`none`: the call returned `nil`).  `argv0` and
`argv` are `os.Args[0]` and `os.Args[1:]`; `control` and `listen` are the
package variables as `init` left them; `cookie` is the value of
`TORCAT_COOKIE`; `relay` is what `main` receives from the channel returned by
`runIO`. -/
structure Env where
  argv0 : String
  argv : List String
  control : String
  listen : Nat
  cookie : String
  parseControlPortString : String → Except String (String × String)
  bulbDial : String → String → Option String
  authenticate : String → Option String
  generateKey : Option String
  onionAddr : Except String String
  newListener : Nat → Option String
  accept : Option String
  dialer : Option String
  dial : String → Option String
  relay : Option String

/-- The slice `os.Args`. -/
def Env.osArgs (e : Env) : List String := e.argv0 :: e.argv

/-- The three resources `main` registers a deferred `Close` for. -/
inductive Resource where
  | torctl
  | listener
  | conn
  deriving DecidableEq, Repr

/-- The diagnostics of `main`, one per `log.Fatalf` call site. -/
inductive Diag where
  | parseControl (err : String)
  | connectControl (err : String)
  | authFailed (err : String)
  | listenRange (listen : Nat)
  | generateKey
  | onionId (err : String)
  | listenPort (err : String)
  | acceptFailed (err : String)
  | invalidArguments (prog : String)
  | emptyDestination
  | invalidPort (arg : String) (err : NumError)
  | getDialer (err : String)
  | connectionFailed (err : String)
  | conversation (err : String)
  deriving DecidableEq, Repr

/-- The message `log.Fatalf` formats at each call site (without the date and
time that the standard logger puts in front of it).  An error of
`strconv.Atoi` prints as `strconv.Atoi: parsing "arg": ` and the kind of
failure, the argument being quoted as it is when it has no character that
needs an escape. -/
def Diag.message : Diag → String
  | .parseControl err => "Failed to parse control socket: " ++ err
  | .connectControl err => "Failed to connect to control socket: " ++ err
  | .authFailed err => "Authentication failed: " ++ err
  | .listenRange n => "Listen port " ++ fmtNat n ++ " is greater than 65535"
  | .generateKey => "Failed to generate RSA key"
  | .onionId err => "Failed to derive onion ID: " ++ err
  | .listenPort err => "Failed to listen port: " ++ err
  | .acceptFailed err => "Failed to accept connection: " ++ err
  | .invalidArguments prog => "Invalid arguments. Must be `" ++ prog ++ " host port'"
  | .emptyDestination => "Empty destination address"
  | .invalidPort arg .invalid =>
    "Invalid port number: strconv.Atoi: parsing \"" ++ arg ++ "\": invalid syntax"
  | .invalidPort arg .range =>
    "Invalid port number: strconv.Atoi: parsing \"" ++ arg ++ "\": value out of range"
  | .getDialer err => "Failed to get Dialer: " ++ err
  | .connectionFailed err => "Connection to " ++ err ++ " failed"
  | .conversation err => "Failed conversation: " ++ err

/-- The externally visible actions of `main`, in the order it performs them. -/
inductive Event where
  | parseControlPortString (control : String)
  | bulbDial (proto addr : String)
  | authenticate (cookie : String)
  | generateKey
  | onionAddr
  | stderr (s : String)
  | newListener (port : Nat)
  | accept
  | osArgs
  | dialer
  | dial (dest : String)
  | runIO
  | close (r : Resource)
  | fatal (d : Diag)
  deriving DecidableEq, Repr

/-- A finished run: what was done, and the exit status of the process. -/
structure Run where
  trace : List Event
  exit : Nat
  deriving DecidableEq, Repr

/-- The call `log.Fatalf`: print the diagnostic and `os.Exit(1)`; deferred
calls are not run. -/
def fatal (tr : List Event) (d : Diag) : Run := ⟨tr ++ [.fatal d], 1⟩

/-- Return from `main`: the deferred `Close` calls run, last registered
first, and the process exits with status 0. -/
def finish (tr : List Event) (deferred : List Resource) : Run :=
  ⟨tr ++ deferred.map .close, 0⟩

/-- The `select` on the channel returned by `runIO(conn)`, lines 68-74 and
97-103: a non-nil outcome is fatal, a nil outcome falls out of `main`. -/
def converse (e : Env) (tr : List Event) (deferred : List Resource) : Run :=
  match e.relay with
  | some err => fatal (tr ++ [Event.runIO]) (.conversation err)
  | none => finish (tr ++ [Event.runIO]) deferred

/-- Lines 79-88: the destination built from `os.Args`, or the diagnostic. -/
def destination (e : Env) : Except Diag String :=
  match e.osArgs with
  | [_, addr, p] =>
    if addr.length = 0 then .error .emptyDestination
    else
      match atoi p with
      | .error err => .error (.invalidPort p err)
      | .ok port => .ok (sprintfDest addr port)
  | _ => .error (.invalidArguments e.argv0)

/-- Lines 48-77: the listen branch. -/
def listenMode (e : Env) (tr : List Event) : Run :=
  match e.generateKey with
  | some _ => fatal (tr ++ [.generateKey]) .generateKey
  | none =>
    match e.onionAddr with
    | .error err => fatal (tr ++ [.generateKey, .onionAddr]) (.onionId err)
    | .ok id =>
      let tr1 := tr ++ [.generateKey, .onionAddr, .stderr id, .stderr ".onion\n",
        .newListener (e.listen % 65536)]
      match e.newListener (e.listen % 65536) with
      | some err => fatal tr1 (.listenPort err)
      | none =>
        match e.accept with
        | some err => fatal (tr1 ++ [.accept]) (.acceptFailed err)
        | none => converse e (tr1 ++ [.accept]) [.conn, .listener, .torctl]

/-- Lines 79-104: the dial branch. -/
def dialMode (e : Env) (tr : List Event) : Run :=
  match destination e with
  | .error d => fatal (tr ++ [.osArgs]) d
  | .ok dest =>
    match e.dialer with
    | some err => fatal (tr ++ [.osArgs, .dialer]) (.getDialer err)
    | none =>
      match e.dial dest with
      | some err => fatal (tr ++ [.osArgs, .dialer, .dial dest]) (.connectionFailed err)
      | none => converse e (tr ++ [.osArgs, .dialer, .dial dest]) [.conn, .torctl]

/-- Lines 45-105: the choice between the two branches. -/
def selectMode (e : Env) (tr : List Event) : Run :=
  if e.listen > 65535 then fatal tr (.listenRange e.listen)
  else if e.listen ≠ 0 then listenMode e tr
  else dialMode e tr

/-- The function `main` of `main.go`. -/
def main (e : Env) : Run :=
  match e.parseControlPortString e.control with
  | .error err => fatal [.parseControlPortString e.control] (.parseControl err)
  | .ok (cproto, caddr) =>
    match e.bulbDial cproto caddr with
    | some err =>
      fatal [.parseControlPortString e.control, .bulbDial cproto caddr] (.connectControl err)
    | none =>
      match e.authenticate e.cookie with
      | some err =>
        fatal [.parseControlPortString e.control, .bulbDial cproto caddr,
          .authenticate e.cookie] (.authFailed err)
      | none =>
        selectMode e [.parseControlPortString e.control, .bulbDial cproto caddr,
          .authenticate e.cookie]

/-! ## Predicates on actions and environments -/

/-- Actions that belong to the listen branch only. -/
def Event.isListenPath : Event → Bool
  | .generateKey | .onionAddr | .stderr _ | .newListener _ | .accept => true
  | _ => false

/-- Actions that belong to the dial branch only: looking at `os.Args`,
`Dialer` and `Dial`. -/
def Event.isDialPath : Event → Bool
  | .osArgs | .dialer | .dial _ => true
  | _ => false

/-- Actions on the network: the control connection and everything done
through it. -/
def Event.isNetwork : Event → Bool
  | .bulbDial _ _ | .authenticate _ | .newListener _ | .accept | .dialer | .dial _ => true
  | Event.runIO => true
  | _ => false

/-- Actions that set up or use the conversation: the onion listener, the
outbound connection, the relay. -/
def Event.isSession : Event → Bool
  | .newListener _ | .accept | .dialer | .dial _ | Event.runIO => true
  | _ => false

/-- A diagnostic printed by `log.Fatalf`. -/
def Event.isFatal : Event → Bool
  | .fatal _ => true
  | _ => false

/-- A deferred `Close` that was run. -/
def Event.isClose : Event → Bool
  | .close _ => true
  | _ => false

/-- The diagnostics of the listen-port range check and of the checks of the
destination arguments. -/
def Diag.isRangeOrArguments : Diag → Bool
  | .listenRange _ | .invalidArguments _ | .emptyDestination | .invalidPort _ _ => true
  | _ => false

/-- The control port was parsed, dialed and authenticated to: `main` reaches
line 45. -/
def Env.setupOk (e : Env) : Prop :=
  ∃ cproto caddr, e.parseControlPortString e.control = .ok (cproto, caddr) ∧
    e.bulbDial cproto caddr = none ∧ e.authenticate e.cookie = none

/-- Every step of the listen branch before the relay succeeded. -/
def Env.listenStepsOk (e : Env) : Prop :=
  e.generateKey = none ∧ (∃ id, e.onionAddr = .ok id) ∧
    e.newListener (e.listen % 65536) = none ∧ e.accept = none

/-- Every step of the dial branch before the relay succeeded. -/
def Env.dialStepsOk (e : Env) : Prop :=
  ∃ dest, destination e = .ok dest ∧ e.dialer = none ∧ e.dial dest = none

/-- Every step before the relay succeeded. -/
def Env.allStepsOk (e : Env) : Prop :=
  e.setupOk ∧ e.listen ≤ 65535 ∧ (if e.listen ≠ 0 then e.listenStepsOk else e.dialStepsOk)

/-- The destination arguments are wrong: `os.Args` does not have three
elements, or the host is empty, or the port is not an integer. -/
def Env.badArguments (e : Env) : Prop :=
  e.osArgs.length ≠ 3 ∨
    ∃ addr p, e.argv = [addr, p] ∧ (addr.length = 0 ∨ ∃ err, atoi p = .error err)

/-- The functions `init` and `main` one after the other, as the Go runtime
runs them: a command line that `flag.Parse` rejects ends the process with
status 2 before `main`. -/
def process (parseUint : String → Option Nat) (e : Env) : Run :=
  match init parseUint e.argv with
  | .error _ => ⟨[], 2⟩
  | .ok f => main { e with control := f.control, listen := f.listen }

/-- An environment in which every call succeeds, for the command line
`torcat example.com 80`. -/
def calmEnv : Env where
  argv0 := "torcat"
  argv := ["example.com", "80"]
  control := "9051"
  listen := 0
  cookie := "c00c1e"
  parseControlPortString := fun c => .ok ("tcp", "127.0.0.1:" ++ c)
  bulbDial := fun _ _ => none
  authenticate := fun _ => none
  generateKey := none
  onionAddr := .ok "facebookcorewwwi"
  newListener := fun _ => none
  accept := none
  dialer := none
  dial := fun _ => none
  relay := none

/-! ## `io.Copy` and the two copy tasks of `runIO` -/

/-- A byte. -/
abbrev Byte := Fin 256

/-- Go `error` values that `io.Copy` handles or produces itself (`io.EOF`,
`io.ErrShortWrite`, the internal `errInvalidWrite`), and any other error,
identified by its text. -/
inductive GoError where
  | eof
  | shortWrite
  | invalidWrite
  | other (msg : String)
  deriving DecidableEq, Repr

/-- What one call `src.Read(buf)` returned: the `n` bytes put in the buffer
and the error. -/
structure ReadResult where
  data : List Byte
  err : Option GoError
  deriving DecidableEq, Repr

/-- What one call `dst.Write(p)` returned. -/
structure WriteResult where
  n : Int
  err : Option GoError
  deriving DecidableEq, Repr

/-- The behaviour of a destination: the result of its `i`-th `Write` call
(counting from 0) on the bytes `p`. -/
abbrev Writer := Nat → List Byte → WriteResult

/-- A destination on which every write succeeds in full. -/
def okWriter : Writer := fun _ p => ⟨p.length, none⟩

/-- The state of one `io.Copy(dst, src)` call: the results the remaining
`Read` calls on `src` will return (when the list is empty the next `Read`
blocks), the number of `Write` calls made, the bytes counted as written, the
number of `Read` and `Write` calls made so far, and the error returned once
the call has returned (`some none`: it returned `nil`). -/
structure Copy where
  src : List ReadResult
  nwrites : Nat
  out : List Byte
  ops : Nat
  ret : Option (Option GoError)
  deriving DecidableEq, Repr

/-- The state in which `io.Copy` is entered. -/
def Copy.start (src : List ReadResult) : Copy := ⟨src, 0, [], 0, none⟩

/-- How the loop of `io.Copy` ends an iteration on the read error `er`:
`io.EOF` ends the copy with `nil`, another error ends it with that error. -/
def afterRead (c : Copy) (er : Option GoError) : Copy :=
  match er with
  | none => c
  | some .eof => { c with ret := some none }
  | some e => { c with ret := some (some e) }

/-- One iteration of the loop of `io.Copy` (the generic loop of
`io.copyBuffer`): a `Read`; when it delivered bytes, a `Write` of them, whose
error or short count ends the copy; then the read error is looked at.  The
shortcuts `io.Copy` takes when the source has `WriteTo` or the destination
has `ReadFrom` move the same bytes and are not modelled apart. -/
def copyIter (w : Writer) (c : Copy) : Copy :=
  match c.ret, c.src with
  | some _, _ => c
  | none, [] => c
  | none, r :: rs =>
    if 0 < r.data.length then
      let wr := w c.nwrites r.data
      let bad : Bool := decide (wr.n < 0 ∨ (r.data.length : Int) < wr.n)
      let nw : Int := if bad then 0 else wr.n
      let ew : Option GoError := if bad ∧ wr.err = none then some .invalidWrite else wr.err
      let c1 : Copy := ⟨rs, c.nwrites + 1, c.out ++ r.data.take nw.toNat, c.ops + 2, none⟩
      match ew with
      | some e => { c1 with ret := some (some e) }
      | none =>
        if (r.data.length : Int) ≠ nw then { c1 with ret := some (some .shortWrite) }
        else afterRead c1 r.err
    else afterRead ⟨rs, c.nwrites, c.out, c.ops + 1, none⟩ r.err

/-- Iterate the loop `fuel` times. -/
def copyLoop (w : Writer) : Nat → Copy → Copy
  | 0, c => c
  | fuel + 1, c => copyLoop w fuel (copyIter w c)

/-- The call `io.Copy(dst, src)` run on its own: every iteration consumes one
read result, so as many iterations as there are read results either return
or leave the copy blocked in a `Read` that never returns. -/
def ioCopy (w : Writer) (src : List ReadResult) : Copy :=
  copyLoop w src.length (Copy.start src)

/-- The behaviour of the two destinations of `runIO`: `os.Stdout` and the
write half of `conn`. -/
structure Sinks where
  stdout : Writer
  conn : Writer

/-- The two goroutines of `runIO`. -/
inductive TaskId where
  | download
  | upload
  deriving DecidableEq, Repr

/-- The destination each task writes to. -/
def Sinks.writer (io : Sinks) : TaskId → Writer
  | .download => io.stdout
  | .upload => io.conn

/-- The first goroutine of `runIO`, on its own: `io.Copy(os.Stdout, conn)`. -/
def downloadTask (io : Sinks) (conn : List ReadResult) : Copy := ioCopy io.stdout conn

/-- The second goroutine of `runIO`, on its own: `io.Copy(conn, os.Stdin)`. -/
def uploadTask (io : Sinks) (stdin : List ReadResult) : Copy := ioCopy io.conn stdin

/-! ## The race: `runIO` and the receive in `main` -/

/-- The relay while it runs.  `errchan` holds the values of the goroutines
parked in their send on the unbuffered `errchan`, in arrival order;
`received` is what `main` got from `<-runIO(conn)`; `exited` is set when the
process has terminated.  `sent` lists the tasks that have executed their
send statement, in the order they did (a task in it is parked in its send or
has handed its value over); `finished` lists the tasks whose `io.Copy` has
returned, in the order they returned (it is not program state). -/
structure Relay where
  download : Copy
  upload : Copy
  errchan : List (Option GoError)
  received : Option (Option GoError)
  exited : Bool
  sent : List TaskId
  finished : List TaskId
  deriving DecidableEq, Repr

/-- The state of one task. -/
def Relay.task (s : Relay) : TaskId → Copy
  | .download => s.download
  | .upload => s.upload

/-- Replace the state of one task. -/
def Relay.setTask (s : Relay) (t : TaskId) (c : Copy) : Relay :=
  match t with
  | .download => { s with download := c }
  | .upload => { s with upload := c }

/-- The function `runIO`: make the channel and start the two goroutines,
one copying from `conn` and one from `os.Stdin`. -/
def runIO (conn stdin : List ReadResult) : Relay :=
  ⟨Copy.start conn, Copy.start stdin, [], none, false, [], []⟩

/-- The steps an interleaving is made of: a task runs one iteration of its
copy loop (the last one returns from `io.Copy`), a task that has returned
executes its send `errchan <- err`, `main` receives from the channel, the
process terminates. -/
inductive Action where
  | io (t : TaskId)
  | send (t : TaskId)
  | recv
  | exit
  deriving DecidableEq, Repr

/-- One step.  A task runs its copy loop until `io.Copy` returns; then, in a
step of its own, it sends the result on `errchan`, once, and stays parked
there until the value is taken.  `main` receives the value of the goroutine
that has been parked longest, once.  The process can terminate only after
`main` has received (`log.Fatalf` or the return from `main`); nothing runs
afterwards.  A step that is not possible leaves the state as it is. -/
def step (io : Sinks) (s : Relay) (a : Action) : Relay :=
  if s.exited then s
  else
    match a with
    | .io t =>
      match (s.task t).ret with
      | some _ => s
      | none =>
        let c := copyIter (io.writer t) (s.task t)
        match c.ret with
        | some _ => { s.setTask t c with finished := s.finished ++ [t] }
        | none => s.setTask t c
    | .send t =>
      match (s.task t).ret with
      | none => s
      | some o =>
        if t ∈ s.sent then s
        else { s with errchan := s.errchan ++ [o], sent := s.sent ++ [t] }
    | .recv =>
      match s.received, s.errchan with
      | none, o :: q => { s with received := some o, errchan := q }
      | _, _ => s
    | .exit =>
      match s.received with
      | some _ => { s with exited := true }
      | none => s

/-- Run a schedule. -/
def exec (io : Sinks) (s : Relay) (sched : List Action) : Relay :=
  sched.foldl (step io) s

/-- What each task reads from: `conn` for the download, `os.Stdin` for the
upload. -/
def script (conn stdin : List ReadResult) : TaskId → List ReadResult
  | .download => conn
  | .upload => stdin

/-- What holds of every state the relay can get into from `runIO conn stdin`:
each task is some number of iterations into its copy; a task that has sent
has returned from `io.Copy`; the values on the channel, received or waiting,
are the results of the tasks that have sent, in the order they sent; the
process terminates only after `main` has received. -/
structure Reach (io : Sinks) (conn stdin : List ReadResult) (s : Relay) : Prop where
  download : ∃ k, s.download = copyLoop io.stdout k (Copy.start conn)
  upload : ∃ k, s.upload = copyLoop io.conn k (Copy.start stdin)
  queue : s.received.toList ++ s.errchan = s.sent.map (fun t => (s.task t).ret.getD none)
  snt : ∀ t, t ∈ s.sent → ∃ o, (s.task t).ret = some o
  exited : s.exited = true → ∃ o, s.received = some o

/-- Where an error `E` returned by `io.Copy(dst, src)` can come from: it is
`io.ErrShortWrite` or the invalid-write error that `io.Copy` makes itself, or
the error of one of the reads on `src`, or the error of a write on `dst`. -/
def ReturnedBy (w : Writer) (src : List ReadResult) (E : GoError) : Prop :=
  E = .shortWrite ∨ E = .invalidWrite ∨ (∃ r, r ∈ src ∧ r.err = some E) ∨
    ∃ i p, (w i p).err = some E

/-! ## Concrete inputs -/

/-- Both destinations accept every write in full. -/
def okSinks : Sinks := ⟨okWriter, okWriter⟩

/-- A destination whose every write fails with `EIO`, nothing written. -/
def eioWriter : Writer := fun _ _ => ⟨0, some (.other "EIO")⟩

/-- A source whose first read fails with `EIO`. -/
def eioSource : List ReadResult := [⟨[], some (.other "EIO")⟩]

/-- A source at end-of-stream. -/
def eofSource : List ReadResult := [⟨[], some .eof⟩]

/-- A source that delivers two chunks and then blocks. -/
def twoChunks : List ReadResult := [⟨[104, 105], none⟩, ⟨[10], none⟩]

/-! ## Lemmas on `main` -/

theorem fatal_last (tr : List Event) (d : Diag) :
    (fatal tr d).trace.getLast? = some (.fatal d) := by
  simp [fatal]

/-- How a run of `main` that starts after the events `tr` can end: with
status 0 and no diagnostic, or with status 1 right after a diagnostic. -/
theorem converse_shape (e : Env) (tr : List Event) (ds : List Resource) :
    ((converse e tr ds).exit = 0 ∧ e.relay = none ∧
        (converse e tr ds).trace.any Event.isFatal = tr.any Event.isFatal) ∨
      ((converse e tr ds).exit = 1 ∧ ∃ err, e.relay = some err ∧
        (converse e tr ds).trace.getLast? = some (.fatal (.conversation err))) := by
  unfold converse
  split
  · right
    rename_i err h
    exact ⟨rfl, err, h, fatal_last _ _⟩
  · left
    rename_i h
    exact ⟨rfl, h, by simp [finish, Event.isFatal]⟩

theorem listenMode_shape (e : Env) (tr : List Event) :
    ((listenMode e tr).exit = 0 ∧ e.listenStepsOk ∧ e.relay = none ∧
        (listenMode e tr).trace.any Event.isFatal = tr.any Event.isFatal) ∨
      ((listenMode e tr).exit = 1 ∧ ¬ (e.listenStepsOk ∧ e.relay = none) ∧
        ∃ d, (listenMode e tr).trace.getLast? = some (.fatal d)) := by
  unfold listenMode Env.listenStepsOk
  split
  · right
    rename_i h
    exact ⟨rfl, by simp [h], _, fatal_last _ _⟩
  · rename_i h1
    split
    · right
      rename_i h
      exact ⟨rfl, by simp [h], _, fatal_last _ _⟩
    · rename_i id h2
      simp only
      split
      · right
        rename_i h
        exact ⟨rfl, by simp [h], _, fatal_last _ _⟩
      · rename_i h3
        split
        · right
          rename_i h
          exact ⟨rfl, by simp [h], _, fatal_last _ _⟩
        · rename_i h4
          rcases converse_shape e (tr ++ [.generateKey, .onionAddr, .stderr id,
            .stderr ".onion\n", .newListener (e.listen % 65536)] ++ [.accept])
            [.conn, .listener, .torctl] with ⟨a, b, c⟩ | ⟨a, err, b, c⟩
          · left
            refine ⟨a, ⟨h1, ⟨id, h2⟩, h3, h4⟩, b, ?_⟩
            rw [c]
            simp [Event.isFatal]
          · right
            exact ⟨a, by simp [b], _, c⟩

theorem dialMode_shape (e : Env) (tr : List Event) :
    ((dialMode e tr).exit = 0 ∧ e.dialStepsOk ∧ e.relay = none ∧
        (dialMode e tr).trace.any Event.isFatal = tr.any Event.isFatal) ∨
      ((dialMode e tr).exit = 1 ∧ ¬ (e.dialStepsOk ∧ e.relay = none) ∧
        ∃ d, (dialMode e tr).trace.getLast? = some (.fatal d)) := by
  unfold dialMode Env.dialStepsOk
  split
  · right
    rename_i h
    exact ⟨rfl, by simp [h], _, fatal_last _ _⟩
  · rename_i dest h1
    split
    · right
      rename_i h
      exact ⟨rfl, by simp [h], _, fatal_last _ _⟩
    · rename_i h2
      split
      · right
        rename_i h
        exact ⟨rfl, by simp [h1, h], _, fatal_last _ _⟩
      · rename_i h3
        rcases converse_shape e (tr ++ [.osArgs, .dialer, .dial dest]) [.conn, .torctl]
          with ⟨a, b, c⟩ | ⟨a, err, b, c⟩
        · left
          refine ⟨a, ⟨dest, h1, h2, h3⟩, b, ?_⟩
          rw [c]
          simp [Event.isFatal]
        · right
          exact ⟨a, by simp [b], _, c⟩

theorem selectMode_shape (e : Env) (tr : List Event) :
    ((selectMode e tr).exit = 0 ∧
        (e.listen ≤ 65535 ∧ (if e.listen ≠ 0 then e.listenStepsOk else e.dialStepsOk)) ∧
        e.relay = none ∧ (selectMode e tr).trace.any Event.isFatal = tr.any Event.isFatal) ∨
      ((selectMode e tr).exit = 1 ∧
        ¬ ((e.listen ≤ 65535 ∧ (if e.listen ≠ 0 then e.listenStepsOk else e.dialStepsOk)) ∧
          e.relay = none) ∧
        ∃ d, (selectMode e tr).trace.getLast? = some (.fatal d)) := by
  unfold selectMode
  split
  · right
    rename_i h
    exact ⟨rfl, by omega, _, fatal_last _ _⟩
  · rename_i h
    have hle : e.listen ≤ 65535 := by omega
    split
    · rename_i h0
      rcases listenMode_shape e tr with ⟨a, b, c, d⟩ | ⟨a, b, c⟩
      · left
        exact ⟨a, ⟨hle, b⟩, c, d⟩
      · right
        refine ⟨a, ?_, c⟩
        intro hh
        exact b ⟨hh.1.2, hh.2⟩
    · rename_i h0
      rcases dialMode_shape e tr with ⟨a, b, c, d⟩ | ⟨a, b, c⟩
      · left
        exact ⟨a, ⟨hle, b⟩, c, d⟩
      · right
        refine ⟨a, ?_, c⟩
        intro hh
        exact b ⟨hh.1.2, hh.2⟩

/-- Either the set-up of the control connection fails, and `main` ends there
with a diagnostic, or it succeeds and `main` goes on to choose the mode, having
done nothing so far but parse, dial and authenticate. -/
theorem main_setup (e : Env) :
    (¬ e.setupOk ∧ (main e).exit = 1 ∧ (∃ d, (main e).trace.getLast? = some (.fatal d)) ∧
        (main e).trace.any Event.isListenPath = false ∧
        (main e).trace.any Event.isDialPath = false ∧
        (main e).trace.any Event.isSession = false) ∨
      (e.setupOk ∧ ∃ tr, main e = selectMode e tr ∧ tr.any Event.isListenPath = false ∧
        tr.any Event.isDialPath = false ∧ tr.any Event.isSession = false ∧
        tr.any Event.isFatal = false) := by
  unfold main Env.setupOk
  split
  · left
    rename_i err h
    refine ⟨by simp [h], rfl, ⟨_, fatal_last _ _⟩, ?_, ?_, ?_⟩ <;>
      simp [fatal, Event.isListenPath, Event.isDialPath, Event.isSession]
  · rename_i p a h1
    split
    · left
      rename_i err h
      refine ⟨by simp [h1, h], rfl, ⟨_, fatal_last _ _⟩, ?_, ?_, ?_⟩ <;>
        simp [fatal, Event.isListenPath, Event.isDialPath, Event.isSession]
    · rename_i h2
      split
      · left
        rename_i err h
        refine ⟨by simp [h1, h2, h], rfl, ⟨_, fatal_last _ _⟩, ?_, ?_, ?_⟩ <;>
          simp [fatal, Event.isListenPath, Event.isDialPath, Event.isSession]
      · right
        rename_i h3
        refine ⟨⟨p, a, h1, h2, h3⟩, _, rfl, ?_, ?_, ?_, ?_⟩ <;>
          simp [Event.isListenPath, Event.isDialPath, Event.isSession, Event.isFatal]

theorem listenMode_no_dial (e : Env) (tr : List Event) :
    (listenMode e tr).trace.any Event.isDialPath = tr.any Event.isDialPath := by
  unfold listenMode converse
  repeat' split
  all_goals simp [fatal, finish, Event.isDialPath]

theorem dialMode_no_listen (e : Env) (tr : List Event) :
    (dialMode e tr).trace.any Event.isListenPath = tr.any Event.isListenPath := by
  unfold dialMode converse
  repeat' split
  all_goals simp [fatal, finish, Event.isListenPath]

theorem listenMode_generateKey (e : Env) (tr : List Event) :
    .generateKey ∈ (listenMode e tr).trace := by
  unfold listenMode converse
  repeat' split
  all_goals simp [fatal, finish]

theorem listenMode_newListener (e : Env) (tr : List Event) (hk : e.generateKey = none)
    (id : String) (ho : e.onionAddr = .ok id) :
    .newListener (e.listen % 65536) ∈ (listenMode e tr).trace ∧
      (e.newListener (e.listen % 65536) = none → .accept ∈ (listenMode e tr).trace) := by
  unfold listenMode converse
  rw [hk, ho]
  simp only
  repeat' split
  all_goals simp_all [fatal, finish]

theorem dialMode_osArgs (e : Env) (tr : List Event) : .osArgs ∈ (dialMode e tr).trace := by
  unfold dialMode converse
  repeat' split
  all_goals simp [fatal, finish]

theorem dialMode_dialer (e : Env) (tr : List Event) (dest : String)
    (hd : destination e = .ok dest) :
    .dialer ∈ (dialMode e tr).trace ∧ (e.dialer = none → .dial dest ∈ (dialMode e tr).trace) := by
  unfold dialMode converse
  rw [hd]
  simp only
  repeat' split
  all_goals simp_all [fatal, finish]

/-- Wrong destination arguments are what makes `destination` fail. -/
theorem destination_bad (e : Env) (h : e.badArguments) : ∃ d, destination e = .error d := by
  unfold Env.badArguments Env.osArgs at h
  unfold destination Env.osArgs
  rcases h with h | ⟨addr, p, hargv, h⟩
  · cases ha : e.argv with
    | nil => exact ⟨_, rfl⟩
    | cons a l =>
      cases l with
      | nil => exact ⟨_, rfl⟩
      | cons b l2 =>
        cases l2 with
        | nil => rw [ha] at h; simp at h
        | cons c l3 => exact ⟨_, rfl⟩
  · rw [hargv]
    simp only
    rcases h with h | ⟨err, h⟩
    · rw [if_pos h]
      exact ⟨_, rfl⟩
    · split
      · exact ⟨_, rfl⟩
      · rw [h]
        exact ⟨_, rfl⟩

/-- A failed validation of the destination ends the dial branch before
`Dialer`. -/
theorem dialMode_bad (e : Env) (tr : List Event) (d : Diag) (h : destination e = .error d) :
    dialMode e tr = fatal (tr ++ [.osArgs]) d := by
  unfold dialMode
  rw [h]

theorem selectMode_range (e : Env) (tr : List Event) (h : 65535 < e.listen) :
    selectMode e tr = fatal tr (.listenRange e.listen) := by
  unfold selectMode
  rw [if_pos h]

theorem selectMode_listen (e : Env) (tr : List Event) (h1 : 1 ≤ e.listen)
    (h2 : e.listen ≤ 65535) : selectMode e tr = listenMode e tr := by
  unfold selectMode
  rw [if_neg (by omega), if_pos (by omega)]

theorem selectMode_dial (e : Env) (tr : List Event) (h : e.listen = 0) :
    selectMode e tr = dialMode e tr := by
  unfold selectMode
  rw [if_neg (by omega), if_neg (by simp [h])]

/-- Past the set-up of the control connection `main` chooses the mode. -/
theorem main_past_setup (e : Env) (p a : String)
    (h1 : e.parseControlPortString e.control = .ok (p, a)) (h2 : e.bulbDial p a = none)
    (h3 : e.authenticate e.cookie = none) :
    main e = selectMode e [.parseControlPortString e.control, .bulbDial p a,
      .authenticate e.cookie] := by
  unfold main
  rw [h1]
  simp only
  rw [h2]
  simp only
  rw [h3]

theorem destination_count (e : Env) (h : e.osArgs.length ≠ 3) :
    destination e = .error (.invalidArguments e.argv0) := by
  unfold Env.osArgs at h
  unfold destination Env.osArgs
  cases ha : e.argv with
  | nil => rfl
  | cons a l =>
    cases l with
    | nil => rfl
    | cons b l2 =>
      cases l2 with
      | nil => rw [ha] at h; simp at h
      | cons c l3 => rfl

theorem destination_empty (e : Env) (addr port : String) (ha : e.argv = [addr, port])
    (h : addr.length = 0) : destination e = .error .emptyDestination := by
  unfold destination Env.osArgs
  rw [ha]
  simp only
  rw [if_pos h]

theorem destination_port (e : Env) (addr port : String) (err : NumError)
    (ha : e.argv = [addr, port]) (h : addr.length ≠ 0) (hp : atoi port = .error err) :
    destination e = .error (.invalidPort port err) := by
  unfold destination Env.osArgs
  rw [ha]
  simp only
  rw [if_neg h, hp]

theorem converse_ext (e : Env) (tr : List Event) (ds : List Resource) :
    ∃ ext, (converse e tr ds).trace = tr ++ ext := by
  unfold converse
  split
  · exact ⟨_, List.append_assoc _ _ _⟩
  · exact ⟨_, List.append_assoc _ _ _⟩

theorem ext_trans (tr a : List Event) (r : Run) (h : ∃ x, r.trace = (tr ++ a) ++ x) :
    ∃ x, r.trace = tr ++ x := by
  obtain ⟨x, hx⟩ := h
  exact ⟨a ++ x, by rw [hx, List.append_assoc]⟩

theorem selectMode_ext (e : Env) (tr : List Event) :
    ∃ ext, (selectMode e tr).trace = tr ++ ext := by
  unfold selectMode listenMode dialMode
  repeat' split
  all_goals try dsimp only
  all_goals first
    | exact ⟨_, rfl⟩
    | exact ext_trans _ _ _ ⟨_, rfl⟩
    | exact ext_trans _ _ _ (ext_trans _ _ _ ⟨_, rfl⟩)
    | exact ext_trans _ _ _ (converse_ext e _ _)
    | exact ext_trans _ _ _ (ext_trans _ _ _ (converse_ext e _ _))

/-- A diagnostic of the range check or of the destination arguments is
printed only after the control port has been dialed and authenticated to. -/
theorem main_late_diag (e : Env) (d : Diag) (hd : d.isRangeOrArguments = true)
    (hmem : .fatal d ∈ (main e).trace) :
    ∃ p a tail, e.parseControlPortString e.control = .ok (p, a) ∧ e.bulbDial p a = none ∧
      e.authenticate e.cookie = none ∧
      (main e).trace = .parseControlPortString e.control :: .bulbDial p a ::
        .authenticate e.cookie :: tail := by
  cases h1 : e.parseControlPortString e.control with
  | error err =>
    unfold main at hmem
    rw [h1] at hmem
    simp [fatal] at hmem
    rw [hmem] at hd
    simp [Diag.isRangeOrArguments] at hd
  | ok pa =>
    obtain ⟨p, a⟩ := pa
    cases h2 : e.bulbDial p a with
    | some err =>
      unfold main at hmem
      rw [h1] at hmem
      simp only at hmem
      rw [h2] at hmem
      simp [fatal] at hmem
      rw [hmem] at hd
      simp [Diag.isRangeOrArguments] at hd
    | none =>
      cases h3 : e.authenticate e.cookie with
      | some err =>
        unfold main at hmem
        rw [h1] at hmem
        simp only at hmem
        rw [h2] at hmem
        simp only at hmem
        rw [h3] at hmem
        simp [fatal] at hmem
        rw [hmem] at hd
        simp [Diag.isRangeOrArguments] at hd
      | none =>
        obtain ⟨ext, hext⟩ := selectMode_ext e [.parseControlPortString e.control,
          .bulbDial p a, .authenticate e.cookie]
        refine ⟨p, a, ext, ?_, ?_, ?_, ?_⟩
        · rfl
        · exact h2
        · rfl
        · rw [main_past_setup e p a h1 h2 h3, hext]
          rfl

/-! ## Lemmas on `io.Copy` -/

theorem afterRead_none (c : Copy) : afterRead c none = c := rfl

theorem afterRead_eof (c : Copy) : afterRead c (some .eof) = { c with ret := some none } := rfl

theorem afterRead_err (c : Copy) (e : GoError) (h : e ≠ .eof) :
    afterRead c (some e) = { c with ret := some (some e) } := by
  cases e <;> first | exact absurd rfl h | rfl

theorem copyIter_returned (w : Writer) (c : Copy) (o : Option GoError) (h : c.ret = some o) :
    copyIter w c = c := by
  unfold copyIter
  rw [h]

theorem copyIter_blocked (w : Writer) (c : Copy) (h : c.src = []) : copyIter w c = c := by
  unfold copyIter
  rw [h]
  cases c.ret <;> rfl

theorem copyLoop_returned (w : Writer) (n : Nat) (c : Copy) (o : Option GoError)
    (h : c.ret = some o) : copyLoop w n c = c := by
  induction n with
  | zero => rfl
  | succ n ih => rw [copyLoop, copyIter_returned w c o h, ih]

theorem copyLoop_blocked (w : Writer) (n : Nat) (c : Copy) (h : c.src = []) :
    copyLoop w n c = c := by
  induction n with
  | zero => rfl
  | succ n ih => rw [copyLoop, copyIter_blocked w c h, ih]

theorem copyLoop_add (w : Writer) (a b : Nat) (c : Copy) :
    copyLoop w (a + b) c = copyLoop w b (copyLoop w a c) := by
  induction a generalizing c with
  | zero => simp [copyLoop]
  | succ a ih => rw [Nat.succ_add, copyLoop, copyLoop, ih]

theorem copyLoop_succ (w : Writer) (n : Nat) (c : Copy) :
    copyLoop w (n + 1) c = copyIter w (copyLoop w n c) := by
  rw [copyLoop_add]; rfl

theorem afterRead_src (c : Copy) (er : Option GoError) : (afterRead c er).src = c.src := by
  unfold afterRead
  split <;> rfl

/-- An iteration that does not return consumes one read result. -/
theorem copyIter_src (w : Writer) (c : Copy) (r : ReadResult) (rs : List ReadResult)
    (hr : c.ret = none) (hs : c.src = r :: rs) : (copyIter w c).src = rs := by
  unfold copyIter
  rw [hr, hs]
  simp only
  repeat' split
  all_goals first | rfl | rw [afterRead_src]

/-- After as many iterations as there were read results, the copy has
returned or is blocked. -/
theorem copyLoop_done (w : Writer) (n : Nat) (c : Copy) (h : c.src.length ≤ n) :
    (∃ o, (copyLoop w n c).ret = some o) ∨ (copyLoop w n c).src = [] := by
  induction n generalizing c with
  | zero =>
    right
    simpa [copyLoop] using h
  | succ n ih =>
    rw [copyLoop]
    cases hr : c.ret with
    | some o =>
      left
      rw [copyIter_returned w c o hr, copyLoop_returned w n c o hr]
      exact ⟨o, hr⟩
    | none =>
      cases hs : c.src with
      | nil =>
        right
        rw [copyIter_blocked w c hs, copyLoop_blocked w n c hs]
        exact hs
      | cons r rs =>
        apply ih
        rw [copyIter_src w c r rs hr hs]
        rw [hs] at h
        simpa using h

/-- Further iterations do not change a copy that has run for as many
iterations as there were read results. -/
theorem copyLoop_stable (w : Writer) (n k : Nat) (c : Copy) (h : c.src.length ≤ n) :
    copyLoop w (n + k) c = copyLoop w n c := by
  rw [copyLoop_add]
  rcases copyLoop_done w n c h with ⟨o, ho⟩ | hs
  · exact copyLoop_returned w k _ o ho
  · exact copyLoop_blocked w k _ hs

/-- What a task has returned after any number of iterations is what
`io.Copy` returns when run on its own. -/
theorem copyLoop_ret_ioCopy (w : Writer) (k : Nat) (src : List ReadResult) (o : Option GoError)
    (h : (copyLoop w k (Copy.start src)).ret = some o) : (ioCopy w src).ret = some o := by
  unfold ioCopy
  rcases Nat.le_total k src.length with hk | hk
  · obtain ⟨d, hd⟩ := Nat.exists_eq_add_of_le hk
    rw [hd, copyLoop_add, copyLoop_returned w d _ o h]
    exact h
  · obtain ⟨d, hd⟩ := Nat.exists_eq_add_of_le hk
    rw [hd, copyLoop_stable w src.length d _ (by simp [Copy.start])] at h
    exact h

/-- One iteration on a destination that accepts everything. -/
theorem copyIter_okWrites (w : Writer) (hw : ∀ i p, w i p = ⟨p.length, none⟩)
    (r : ReadResult) (rs : List ReadResult) (nw : Nat) (out : List Byte) (ops : Nat) :
    ∃ nw2 ops2, copyIter w ⟨r :: rs, nw, out, ops, none⟩
      = afterRead ⟨rs, nw2, out ++ r.data, ops2, none⟩ r.err := by
  unfold copyIter
  simp only [hw]
  split
  · refine ⟨nw + 1, ops + 2, ?_⟩
    have h0 : ¬ ((r.data.length : Int) < 0) := by omega
    simp [h0]
  · rename_i h
    have : r.data = [] := by
      cases hd : r.data with
      | nil => rfl
      | cons a l => simp [hd] at h
    refine ⟨nw, ops + 1, ?_⟩
    simp [this]

/-- The copy of a source that delivers `chunks` and then ends with the read
result `(last, er)`, on a destination that accepts everything. -/
theorem copyLoop_okWrites (w : Writer) (hw : ∀ i p, w i p = ⟨p.length, none⟩)
    (chunks : List (List Byte)) (last : List Byte) (er : GoError) (nw : Nat)
    (out : List Byte) (ops : Nat) :
    ∃ nw2 ops2, copyLoop w (chunks.length + 1)
        ⟨chunks.map (fun d => ⟨d, none⟩) ++ [⟨last, some er⟩], nw, out, ops, none⟩
      = afterRead ⟨[], nw2, out ++ chunks.flatten ++ last, ops2, none⟩ (some er) := by
  induction chunks generalizing nw out ops with
  | nil =>
    obtain ⟨nw2, ops2, h⟩ := copyIter_okWrites w hw ⟨last, some er⟩ [] nw out ops
    refine ⟨nw2, ops2, ?_⟩
    simp only [List.length_nil, List.map_nil, List.nil_append, copyLoop, List.flatten_nil,
      List.append_nil]
    exact h
  | cons ch chunks ih =>
    obtain ⟨nw1, ops1, h⟩ := copyIter_okWrites w hw ⟨ch, none⟩
      (chunks.map (fun d => ⟨d, none⟩) ++ [⟨last, some er⟩]) nw out ops
    obtain ⟨nw2, ops2, h2⟩ := ih nw1 (out ++ ch) ops1
    refine ⟨nw2, ops2, ?_⟩
    rw [List.length_cons, copyLoop, List.map_cons, List.cons_append, h, afterRead_none, h2]
    simp [List.append_assoc]

/-! ## Lemmas on the race -/

theorem task_setTask_same (s : Relay) (t : TaskId) (c : Copy) : (s.setTask t c).task t = c := by
  cases t <;> rfl

theorem task_setTask_other (s : Relay) (t u : TaskId) (c : Copy) (h : u ≠ t) :
    (s.setTask t c).task u = s.task u := by
  cases t <;> cases u <;> first | rfl | exact absurd rfl h

theorem exec_append (io : Sinks) (s : Relay) (a b : List Action) :
    exec io s (a ++ b) = exec io (exec io s a) b := by
  simp [exec, List.foldl_append]

theorem exec_cons (io : Sinks) (s : Relay) (a : Action) (b : List Action) :
    exec io s (a :: b) = exec io (step io s a) b := rfl

theorem step_exited (io : Sinks) (s : Relay) (a : Action) (h : s.exited = true) :
    step io s a = s := by
  simp [step, h]

/-- Nothing happens after the process has terminated. -/
theorem exec_exited (io : Sinks) (s : Relay) (sched : List Action) (h : s.exited = true) :
    exec io s sched = s := by
  induction sched with
  | nil => rfl
  | cons a l ih => rw [exec_cons, step_exited io s a h, ih]

/-- A task that has returned from `io.Copy` is not changed by any step. -/
theorem step_task_returned (io : Sinks) (s : Relay) (a : Action) (t : TaskId)
    (o : Option GoError) (h : (s.task t).ret = some o) : (step io s a).task t = s.task t := by
  unfold step
  split
  · rfl
  · cases a with
    | io u =>
      by_cases hu : u = t
      · subst hu
        simp [h]
      · simp only
        split
        · rfl
        · split
          · exact task_setTask_other _ u t _ (Ne.symm hu)
          · exact task_setTask_other _ u t _ (Ne.symm hu)
    | send u =>
      simp only
      split
      · rfl
      · split
        · rfl
        · cases t <;> rfl
    | recv =>
      simp only
      split <;> rfl
    | exit =>
      simp only
      split <;> rfl

theorem exec_task_returned (io : Sinks) (s : Relay) (sched : List Action) (t : TaskId)
    (o : Option GoError) (h : (s.task t).ret = some o) : (exec io s sched).task t = s.task t := by
  induction sched generalizing s with
  | nil => rfl
  | cons a l ih =>
    have h1 := step_task_returned io s a t o h
    rw [exec_cons, ih (step io s a) (by rw [h1]; exact h), h1]

/-- What `main` has received does not change any more. -/
theorem step_received (io : Sinks) (s : Relay) (a : Action) (o : Option GoError)
    (h : s.received = some o) : (step io s a).received = some o := by
  unfold step
  split
  · exact h
  · cases a with
    | io u =>
      simp only
      split
      · exact h
      · split <;> cases u <;> exact h
    | send u =>
      simp only
      split
      · exact h
      · split <;> exact h
    | recv => simp [h]
    | exit => simp [h]

theorem exec_received (io : Sinks) (s : Relay) (sched : List Action) (o : Option GoError)
    (h : s.received = some o) : (exec io s sched).received = some o := by
  induction sched generalizing s with
  | nil => exact h
  | cons a l ih => rw [exec_cons]; exact ih _ (step_received io s a o h)

theorem reach_start (io : Sinks) (conn stdin : List ReadResult) :
    Reach io conn stdin ( runIO conn stdin) where
  download := ⟨0, rfl⟩
  upload := ⟨0, rfl⟩
  queue := rfl
  snt := by intro t h; simp [ runIO] at h
  exited := by intro h; simp [ runIO] at h

theorem reach_task (io : Sinks) (conn stdin : List ReadResult) (s : Relay)
    (h : Reach io conn stdin s) (t : TaskId) :
    ∃ k, s.task t = copyLoop (io.writer t) k (Copy.start (script conn stdin t)) := by
  cases t
  · exact h.download
  · exact h.upload

/-- A step of the copy loop of a task keeps the relay within the reachable
states: the task has not sent yet, so the channel is not concerned. -/
theorem reach_update (io : Sinks) (conn stdin : List ReadResult) (s s2 : Relay)
    (h : Reach io conn stdin s) (t : TaskId) (hr : (s.task t).ret = none)
    (ht : s2.task t = copyIter (io.writer t) (s.task t))
    (ho : ∀ u, u ≠ t → s2.task u = s.task u)
    (f1 : s2.received = s.received) (f2 : s2.errchan = s.errchan) (f3 : s2.sent = s.sent)
    (f4 : s2.exited = s.exited) : Reach io conn stdin s2 := by
  have hnot : t ∉ s.sent := by
    intro hm
    obtain ⟨o, ho⟩ := h.snt t hm
    rw [hr] at ho
    cases ho
  have htask : ∀ u, ∃ k,
      s2.task u = copyLoop (io.writer u) k (Copy.start (script conn stdin u)) := by
    intro u
    by_cases hu : u = t
    · subst hu
      obtain ⟨k, hk⟩ := reach_task io conn stdin s h u
      exact ⟨k + 1, by rw [ht, copyLoop_succ, hk]⟩
    · rw [ho u hu]
      exact reach_task io conn stdin s h u
  refine ⟨htask .download, htask .upload, ?_, ?_, ?_⟩
  · rw [f1, f2, f3, h.queue]
    apply List.map_congr_left
    intro u hu
    have hne : u ≠ t := fun e => hnot (e ▸ hu)
    rw [ho u hne]
  · intro u hu
    rw [f3] at hu
    have hne : u ≠ t := fun e => hnot (e ▸ hu)
    rw [ho u hne]
    exact h.snt u hu
  · rw [f1, f4]
    exact h.exited

/-- Every step keeps the relay within the reachable states. -/
theorem reach_step (io : Sinks) (conn stdin : List ReadResult) (s : Relay)
    (h : Reach io conn stdin s) (a : Action) : Reach io conn stdin (step io s a) := by
  unfold step
  split
  · exact h
  · cases a with
    | io t =>
      simp only
      split
      · exact h
      · rename_i hr
        split
        · refine reach_update io conn stdin s _ h t hr ?_ ?_ ?_ ?_ ?_ ?_
          · cases t <;> rfl
          · intro u hu
            cases t <;> cases u <;> first | rfl | exact absurd rfl hu
          all_goals cases t <;> rfl
        · refine reach_update io conn stdin s _ h t hr ?_ ?_ ?_ ?_ ?_ ?_
          · cases t <;> rfl
          · intro u hu
            cases t <;> cases u <;> first | rfl | exact absurd rfl hu
          all_goals cases t <;> rfl
    | send t =>
      simp only
      split
      · exact h
      · rename_i o hr
        split
        · exact h
        · rename_i hnot
          refine ⟨h.download, h.upload, ?_, ?_, h.exited⟩
          · show s.received.toList ++ (s.errchan ++ [o])
              = List.map (fun u => (s.task u).ret.getD none) (s.sent ++ [t])
            rw [← List.append_assoc, h.queue, List.map_append]
            simp [hr]
          · intro u hu
            have hu2 : u ∈ s.sent ++ [t] := hu
            rw [List.mem_append, List.mem_singleton] at hu2
            rcases hu2 with hu2 | hu2
            · exact h.snt u hu2
            · rw [hu2]
              exact ⟨o, hr⟩
    | recv =>
      simp only
      split
      · rename_i o q hrec hq
        refine ⟨h.download, h.upload, ?_, h.snt, ?_⟩
        · have := h.queue
          rw [hrec, hq] at this
          simpa using this
        · intro _
          exact ⟨o, rfl⟩
      · exact h
    | exit =>
      simp only
      split
      · rename_i o hrec
        exact ⟨h.download, h.upload, h.queue, h.snt, fun _ => ⟨o, hrec⟩⟩
      · exact h

/-- Every schedule keeps the relay within the reachable states. -/
theorem reach_exec (io : Sinks) (conn stdin : List ReadResult) (sched : List Action) :
    Reach io conn stdin (exec io ( runIO conn stdin) sched) := by
  suffices H : ∀ s, Reach io conn stdin s → Reach io conn stdin (exec io s sched) from
    H _ (reach_start io conn stdin)
  induction sched with
  | nil => intro s h; exact h
  | cons a l ih => intro s h; rw [exec_cons]; exact ih _ (reach_step io conn stdin s h a)

/-- The first task to send decides what `main` receives: in a reachable
state whose first sender is `t`, that task has returned some `o`, and a
receive by `main` yields `o`. -/
theorem recv_first (io : Sinks) (conn stdin : List ReadResult) (s : Relay)
    (h : Reach io conn stdin s) (t : TaskId) (rest : List TaskId)
    (hf : s.sent = t :: rest) :
    ∃ o, (s.task t).ret = some o ∧ (s.received = none ∨ s.received = some o) ∧
      (step io s .recv).received = some o := by
  obtain ⟨o, ho⟩ := h.snt t (by rw [hf]; exact List.mem_cons_self _ _)
  have hq := h.queue
  rw [hf, List.map_cons, ho] at hq
  refine ⟨o, ho, ?_, ?_⟩
  · cases hrec : s.received with
    | none => exact Or.inl rfl
    | some r =>
      rw [hrec] at hq
      simp at hq
      exact Or.inr (by rw [hq.1])
  · cases hrec : s.received with
    | some r =>
      rw [hrec] at hq
      simp at hq
      rw [step_received io s .recv r hrec, hq.1]
    | none =>
      rw [hrec] at hq
      simp at hq
      have hex : s.exited = false := by
        cases he : s.exited with
        | false => rfl
        | true =>
          obtain ⟨r, hr⟩ := h.exited he
          rw [hrec] at hr
          cases hr
      cases hsq : s.errchan with
      | nil => rw [hsq] at hq; cases hq
      | cons a q =>
        rw [hsq] at hq
        simp [step, hex, hrec, hsq]
        exact (List.cons.inj hq).1

/-- Whatever `main` has received is the result of the first task to send. -/
theorem received_first (io : Sinks) (conn stdin : List ReadResult) (s : Relay)
    (h : Reach io conn stdin s) (o : Option GoError) (hrec : s.received = some o) :
    ∃ t rest, s.sent = t :: rest ∧ (s.task t).ret = some o := by
  have hq := h.queue
  rw [hrec] at hq
  cases hf : s.sent with
  | nil => rw [hf] at hq; simp at hq
  | cons t rest =>
    obtain ⟨o2, ho2, hor, _⟩ := recv_first io conn stdin s h t rest hf
    refine ⟨t, rest, rfl, ?_⟩
    rcases hor with h1 | h1
    · rw [hrec] at h1; cases h1
    · rw [hrec] at h1
      cases h1
      exact ho2

/-- The result a task has in a reachable state is the result of its
`io.Copy` run on its own. -/
theorem reach_ret (io : Sinks) (conn stdin : List ReadResult) (s : Relay)
    (h : Reach io conn stdin s) (t : TaskId) (o : Option GoError)
    (ho : (s.task t).ret = some o) :
    (ioCopy (io.writer t) (script conn stdin t)).ret = some o := by
  obtain ⟨k, hk⟩ := reach_task io conn stdin s h t
  rw [hk] at ho
  exact copyLoop_ret_ioCopy _ k _ o ho

/-- The copy, run on its own, of a source that delivers `chunks` and then
ends with the read result `(last, er)`, on a destination that accepts
everything. -/
theorem ioCopy_okWrites (w : Writer) (hw : ∀ i p, w i p = ⟨p.length, none⟩)
    (chunks : List (List Byte)) (last : List Byte) (er : GoError) :
    ∃ nw ops, ioCopy w (chunks.map (fun d => ⟨d, none⟩) ++ [⟨last, some er⟩])
      = afterRead ⟨[], nw, chunks.flatten ++ last, ops, none⟩ (some er) := by
  obtain ⟨nw, ops, h⟩ := copyLoop_okWrites w hw chunks last er 0 [] 0
  refine ⟨nw, ops, ?_⟩
  unfold ioCopy Copy.start
  rw [List.length_append, List.length_map, List.length_singleton, h, List.nil_append]

theorem afterRead_ret (c : Copy) (er : Option GoError) (E : GoError) (hc : c.ret = none)
    (h : (afterRead c er).ret = some (some E)) : er = some E := by
  unfold afterRead at h
  split at h
  · rw [hc] at h; cases h
  · simp at h
  · simp at h
    rw [h]

/-- An error with which an iteration returns is one `io.Copy` makes itself,
the error of the read of this iteration, or the error of a write. -/
theorem copyIter_ret (w : Writer) (c : Copy) (E : GoError) (hc : c.ret = none)
    (h : (copyIter w c).ret = some (some E)) :
    E = .shortWrite ∨ E = .invalidWrite ∨ (∃ r, r ∈ c.src ∧ r.err = some E) ∨
      ∃ i p, (w i p).err = some E := by
  unfold copyIter at h
  rw [hc] at h
  cases hs : c.src with
  | nil => rw [hs] at h; simp [hc] at h
  | cons r rs =>
    rw [hs] at h
    simp only at h
    have hread : ∀ c1 : Copy, c1.ret = none → (afterRead c1 r.err).ret = some (some E) →
        E = .shortWrite ∨ E = .invalidWrite ∨ (∃ r2, r2 ∈ r :: rs ∧ r2.err = some E) ∨
          ∃ i p, (w i p).err = some E :=
      fun c1 h1 h2 => Or.inr (Or.inr (Or.inl ⟨r, List.mem_cons_self _ _,
        afterRead_ret c1 r.err E h1 h2⟩))
    by_cases hlen : 0 < r.data.length
    · rw [if_pos hlen] at h
      cases herr : (w c.nwrites r.data).err with
      | some e =>
        simp [herr] at h
        exact Or.inr (Or.inr (Or.inr ⟨_, _, by rw [herr, h]⟩))
      | none =>
        cases hbad : decide ((w c.nwrites r.data).n < 0 ∨
            (r.data.length : Int) < (w c.nwrites r.data).n) with
        | true =>
          simp [herr, hbad] at h
          exact Or.inr (Or.inl h.symm)
        | false =>
          simp [herr, hbad] at h
          split at h
          · exact hread _ rfl h
          · simp at h
            exact Or.inl h.symm
    · rw [if_neg hlen] at h
      exact hread _ rfl h

theorem copyIter_src_sub (w : Writer) (c : Copy) (r : ReadResult)
    (h : r ∈ (copyIter w c).src) : r ∈ c.src := by
  cases hc : c.ret with
  | some o => rw [copyIter_returned w c o hc] at h; exact h
  | none =>
    cases hs : c.src with
    | nil => rw [copyIter_blocked w c hs, hs] at h; exact h
    | cons a rs =>
      rw [copyIter_src w c a rs hc hs] at h
      exact List.mem_cons_of_mem _ h

theorem copyLoop_ret (w : Writer) (k : Nat) (c : Copy) (E : GoError)
    (h : (copyLoop w k c).ret = some (some E)) :
    c.ret = some (some E) ∨ E = .shortWrite ∨ E = .invalidWrite ∨
      (∃ r, r ∈ c.src ∧ r.err = some E) ∨ ∃ i p, (w i p).err = some E := by
  induction k generalizing c with
  | zero => exact Or.inl h
  | succ k ih =>
    rw [copyLoop] at h
    cases hc : c.ret with
    | some o =>
      rw [copyIter_returned w c o hc] at h
      rcases ih c h with h1 | h1
      · rw [hc] at h1; exact Or.inl h1
      · exact Or.inr h1
    | none =>
      right
      rcases ih (copyIter w c) h with h1 | h1 | h1 | ⟨r, hr, he⟩ | h1
      · exact copyIter_ret w c E hc h1
      · exact Or.inl h1
      · exact Or.inr (Or.inl h1)
      · exact Or.inr (Or.inr (Or.inl ⟨r, copyIter_src_sub w c r hr, he⟩))
      · exact Or.inr (Or.inr (Or.inr h1))

/-- An error returned by `io.Copy` is one of its own two, or the error of a
read on the source or of a write on the destination, as it is. -/
theorem ioCopy_returnedBy (w : Writer) (src : List ReadResult) (E : GoError)
    (h : (ioCopy w src).ret = some (some E)) : ReturnedBy w src E := by
  rcases copyLoop_ret w src.length (Copy.start src) E h with h1 | h1
  · simp [Copy.start] at h1
  · exact h1

/-! ## The claims -/

/-- C1: which branch `main` takes depends on the listen flag alone.  With
`listen` in 1..65535 no run looks at `os.Args` or calls `Dialer`/`Dial`, and
a run that gets past the control-port set-up enters the listen branch, calling
`NewListener` with that port once the key and the onion address are there
and `Accept` once the listener is; with `listen = 0` no run performs a
listen-branch action, and a run past the set-up looks at `os.Args`, then
calls `Dialer` and `Dial` on the validated destination; with
`listen > 65535` neither branch is entered.  No run takes both. -/
theorem C1_mode_selected_by_listen (e : Env) :
    (1 ≤ e.listen ∧ e.listen ≤ 65535 →
      (main e).trace.any Event.isDialPath = false ∧
      (e.setupOk → .generateKey ∈ (main e).trace) ∧
      (e.setupOk → e.generateKey = none → (∃ id, e.onionAddr = .ok id) →
        .newListener e.listen ∈ (main e).trace ∧
        (e.newListener e.listen = none → .accept ∈ (main e).trace))) ∧
    (e.listen = 0 →
      (main e).trace.any Event.isListenPath = false ∧
      (e.setupOk → .osArgs ∈ (main e).trace) ∧
      (e.setupOk → ∀ dest, destination e = .ok dest →
        .dialer ∈ (main e).trace ∧ (e.dialer = none → .dial dest ∈ (main e).trace))) ∧
    (65535 < e.listen →
      (main e).trace.any Event.isListenPath = false ∧
      (main e).trace.any Event.isDialPath = false) ∧
    ¬ ((main e).trace.any Event.isListenPath = true ∧
      (main e).trace.any Event.isDialPath = true) := by
  have key : ∀ tr, tr.any Event.isListenPath = false → tr.any Event.isDialPath = false →
      ((1 ≤ e.listen ∧ e.listen ≤ 65535 →
          (selectMode e tr).trace.any Event.isDialPath = false) ∧
        (e.listen = 0 → (selectMode e tr).trace.any Event.isListenPath = false) ∧
        (65535 < e.listen → (selectMode e tr).trace.any Event.isListenPath = false ∧
          (selectMode e tr).trace.any Event.isDialPath = false)) := by
    intro tr hl hd
    refine ⟨?_, ?_, ?_⟩
    · intro h
      rw [selectMode_listen e tr h.1 h.2, listenMode_no_dial, hd]
    · intro h
      rw [selectMode_dial e tr h, dialMode_no_listen, hl]
    · intro h
      rw [selectMode_range e tr h]
      simp [fatal, hl, hd, Event.isListenPath, Event.isDialPath]
  rcases main_setup e with ⟨hno, _, _, hl, hd, _⟩ | ⟨hok, tr, hmain, hl, hd, _, _⟩
  · refine ⟨fun _ => ⟨hd, fun h => absurd h hno, fun h => absurd h hno⟩,
      fun _ => ⟨hl, fun h => absurd h hno, fun h => absurd h hno⟩, fun _ => ⟨hl, hd⟩, ?_⟩
    rw [hl]
    simp
  · obtain ⟨k1, k2, k3⟩ := key tr hl hd
    rw [hmain]
    refine ⟨?_, ?_, k3, ?_⟩
    · intro h
      have hmod : e.listen % 65536 = e.listen := Nat.mod_eq_of_lt (by omega)
      refine ⟨k1 h, fun _ => ?_, fun _ hk ho => ?_⟩
      · rw [selectMode_listen e tr h.1 h.2]
        exact listenMode_generateKey e tr
      · obtain ⟨id, ho⟩ := ho
        rw [selectMode_listen e tr h.1 h.2]
        have := listenMode_newListener e tr hk id ho
        rw [hmod] at this
        exact this
    · intro h
      refine ⟨k2 h, fun _ => ?_, fun _ dest hdest => ?_⟩
      · rw [selectMode_dial e tr h]
        exact dialMode_osArgs e tr
      · rw [selectMode_dial e tr h]
        exact dialMode_dialer e tr dest hdest
    · intro hboth
      rcases Nat.lt_or_ge 65535 e.listen with h | h
      · rw [(k3 h).1] at hboth
        simp at hboth
      · rcases Nat.eq_zero_or_pos e.listen with h0 | h0
        · rw [k2 h0] at hboth
          simp at hboth
        · rw [k1 ⟨h0, h⟩] at hboth
          simp at hboth

/-- C1, at `-l 8080` (listen branch up to `Accept`), at no `-l` flag (dial
branch up to `Dial`) and at `-l 70000` (neither). -/
theorem C1_mode_selected_by_listen_witness :
    ((main { calmEnv with listen := 8080 }).trace.any Event.isDialPath = false ∧
      Event.newListener 8080 ∈ (main { calmEnv with listen := 8080 }).trace ∧
      Event.accept ∈ (main { calmEnv with listen := 8080 }).trace) ∧
    ((main calmEnv).trace.any Event.isListenPath = false ∧
      Event.dialer ∈ (main calmEnv).trace ∧
      Event.dial "example.com:80" ∈ (main calmEnv).trace) ∧
    ((main { calmEnv with listen := 70000 }).trace.any Event.isListenPath = false ∧
      (main { calmEnv with listen := 70000 }).trace.any Event.isDialPath = false) :=
  ⟨⟨((C1_mode_selected_by_listen { calmEnv with listen := 8080 }).1 (by decide)).1,
      (((C1_mode_selected_by_listen { calmEnv with listen := 8080 }).1 (by decide)).2.2
        ⟨"tcp", "127.0.0.1:9051", by decide, rfl, rfl⟩ rfl ⟨_, rfl⟩).1,
      (((C1_mode_selected_by_listen { calmEnv with listen := 8080 }).1 (by decide)).2.2
        ⟨"tcp", "127.0.0.1:9051", by decide, rfl, rfl⟩ rfl ⟨_, rfl⟩).2 rfl⟩,
    ⟨((C1_mode_selected_by_listen calmEnv).2.1 rfl).1,
      (((C1_mode_selected_by_listen calmEnv).2.1 rfl).2.2
        ⟨"tcp", "127.0.0.1:9051", by decide, rfl, rfl⟩ "example.com:80" (by decide)).1,
      (((C1_mode_selected_by_listen calmEnv).2.1 rfl).2.2
        ⟨"tcp", "127.0.0.1:9051", by decide, rfl, rfl⟩ "example.com:80" (by decide)).2 rfl⟩,
    (C1_mode_selected_by_listen { calmEnv with listen := 70000 }).2.2.1 (by decide)⟩

/-- C2, as stated, fails: the stream is at end-of-stream and the download's
`io.Copy` returns `nil` first; the upload's `io.Copy` then returns `EIO`, and
the upload is the first to reach its send.  `main` receives `EIO`, not the
`nil` of the task that finished copying first. -/
theorem C2_return_order_not_decisive :
    (exec okSinks ( runIO eofSource eioSource)
        [.io .download, .io .upload, .send .upload, .send .download, .recv]).finished
      = [.download, .upload] ∧
    (downloadTask okSinks eofSource).ret = some none ∧
    (exec okSinks ( runIO eofSource eioSource)
        [.io .download, .io .upload, .send .upload, .send .download, .recv]).received
      = some (some (.other "EIO")) := by
  decide

/-- C2, amended: in every interleaving, what `main` receives from the channel
of `runIO` is the value of the copy task that was the first to execute its
send, which is the result its `io.Copy` has when run on its own; as soon as
one task has sent, a receive by `main` delivers that value, however far the
other task has got, and nothing changes it afterwards. -/
theorem C2_first_sender_decides (io : Sinks) (conn stdin : List ReadResult)
    (sched : List Action) :
    (∀ o, (exec io ( runIO conn stdin) sched).received = some o →
      ∃ t rest, (exec io ( runIO conn stdin) sched).sent = t :: rest ∧
        (ioCopy (io.writer t) (script conn stdin t)).ret = some o) ∧
    (∀ t rest, (exec io ( runIO conn stdin) sched).sent = t :: rest →
      ∃ o, (ioCopy (io.writer t) (script conn stdin t)).ret = some o ∧
        ∀ more, (exec io ( runIO conn stdin) (sched ++ .recv :: more)).received = some o) := by
  have hreach := reach_exec io conn stdin sched
  constructor
  · intro o hrec
    obtain ⟨t, rest, hf, ht⟩ := received_first io conn stdin _ hreach o hrec
    exact ⟨t, rest, hf, reach_ret io conn stdin _ hreach t o ht⟩
  · intro t rest hf
    obtain ⟨o, ht, _, hstep⟩ := recv_first io conn stdin _ hreach t rest hf
    refine ⟨o, reach_ret io conn stdin _ hreach t o ht, ?_⟩
    intro more
    rw [exec_append, exec_cons]
    exact exec_received io _ more o hstep

/-- C2 amended, at a stream already at end-of-stream and a standard input
that never delivers anything: the download returns and sends, the upload
never does, and `main` receives `nil`. -/
theorem C2_first_sender_decides_witness :
    (exec okSinks ( runIO eofSource [])
        [.io .upload, .io .download, .send .download]).sent = [.download] ∧
    ∃ o, (ioCopy (okSinks.writer .download) (script eofSource [] .download)).ret = some o ∧
      ∀ more, (exec okSinks ( runIO eofSource [])
        ([.io .upload, .io .download, .send .download] ++ .recv :: more)).received = some o :=
  ⟨by decide,
    (C2_first_sender_decides okSinks eofSource []
      [.io .upload, .io .download, .send .download]).2 .download [] (by decide)⟩

/-- C3, as stated, fails.  The read from the stream fails with `EIO` while
standard input is at end-of-input and the upload sends first: `main`
receives `nil`, and `EIO` is not reported at all.  And on a connection whose
read fails with `EIO` and on one whose write fails with `EIO`, `main`
receives the same outcome, the bare `EIO`. -/
theorem C3_direction_not_identified :
    (exec okSinks ( runIO eioSource eofSource)
        [.io .download, .io .upload, .send .upload, .send .download, .recv]).received
      = some none ∧
    (exec okSinks ( runIO eioSource [])
        [.io .download, .send .download, .recv]).received = some (some (.other "EIO")) ∧
    (exec ⟨okWriter, eioWriter⟩ ( runIO [] twoChunks)
        [.io .upload, .send .upload, .recv]).received = some (some (.other "EIO")) := by
  decide

/-- C3, amended: when the task that sends first is one whose source delivered
some chunks, all written in full, and then failed a read with an error `E`
other than `io.EOF` (the read from the stream for the download, the read
from standard input for the upload), `main` receives `E` itself, unchanged.
In every run an error that `main` receives is an error value that a read or
a write of one of the two tasks returned, as it is, or one of the two errors
`io.Copy` makes itself: nothing is added to it. -/
theorem C3_error_passed_unchanged (io : Sinks) (conn stdin : List ReadResult)
    (sched : List Action) :
    (∀ (t : TaskId) (rest : List TaskId) (chunks : List (List Byte)) (last : List Byte)
        (E : GoError), E ≠ .eof →
      script conn stdin t = chunks.map (fun d => ⟨d, none⟩) ++ [⟨last, some E⟩] →
      (∀ i p, io.writer t i p = ⟨p.length, none⟩) →
      (exec io ( runIO conn stdin) sched).sent = t :: rest →
      (exec io ( runIO conn stdin) (sched ++ [.recv])).received = some (some E)) ∧
    (∀ E, (exec io ( runIO conn stdin) sched).received = some (some E) →
      ∃ t, ReturnedBy (io.writer t) (script conn stdin t) E) := by
  have hreach := reach_exec io conn stdin sched
  constructor
  · intro t rest chunks last E hE hsrc hw hfirst
    obtain ⟨o, ht, _, hstep⟩ := recv_first io conn stdin _ hreach t rest hfirst
    have hret := reach_ret io conn stdin _ hreach t o ht
    obtain ⟨nw, ops, hcopy⟩ := ioCopy_okWrites (io.writer t) hw chunks last E
    rw [hsrc, hcopy, afterRead_err _ E hE] at hret
    have ho : o = some E := by
      simp at hret
      exact hret.symm
    rw [exec_append, exec_cons, exec, List.foldl_nil, hstep, ho]
  · intro E hrec
    obtain ⟨t, rest, _, ht⟩ := received_first io conn stdin _ hreach (some E) hrec
    exact ⟨t, ioCopy_returnedBy _ _ E (reach_ret io conn stdin _ hreach t (some E) ht)⟩

/-- C3 amended, at a stream whose first read fails with `EIO`, the download
sending first. -/
theorem C3_error_passed_unchanged_witness :
    (exec okSinks ( runIO eioSource twoChunks)
      ([.io .upload, .io .download, .send .download] ++ [.recv])).received
        = some (some (.other "EIO")) ∧
    ∃ t, ReturnedBy (okSinks.writer t) (script eioSource twoChunks t) (.other "EIO") :=
  ⟨(C3_error_passed_unchanged okSinks eioSource twoChunks
      [.io .upload, .io .download, .send .download]).1 .download []
      [] [] (.other "EIO") (by decide) (by decide) (fun _ _ => rfl) (by decide),
    (C3_error_passed_unchanged okSinks eioSource twoChunks
      [.io .upload, .io .download, .send .download, .recv]).2 (.other "EIO") (by decide)⟩

/-- C4: `main` ends with exit status 0 exactly when the control-port parse,
the control dial, the authentication and the listen-port range check
succeeded, then every step of the branch taken (key generation, onion
address, `NewListener` and `Accept`; or argument validation, `Dialer` and
`Dial`), and the outcome received from `runIO` is `nil`; such a run prints
no diagnostic; every other run ends with status 1, and the last thing it
does is print a diagnostic. -/
theorem C4_exit_status (e : Env) :
    ((main e).exit = 0 ↔ e.allStepsOk ∧ e.relay = none) ∧
    ((main e).exit = 0 → (main e).trace.any Event.isFatal = false) ∧
    ((main e).exit ≠ 0 →
      (main e).exit = 1 ∧ ∃ d, (main e).trace.getLast? = some (.fatal d)) := by
  rcases main_setup e with ⟨hno, hexit, hd, _, _, _⟩ | ⟨hok, tr, hmain, _, _, _, hf⟩
  · refine ⟨⟨fun h => ?_, fun h => absurd h.1.1 hno⟩, fun h => ?_, fun _ => ⟨hexit, hd⟩⟩
    · rw [hexit] at h; cases h
    · rw [hexit] at h; cases h
  · rw [hmain]
    rcases selectMode_shape e tr with ⟨a, b, c, d⟩ | ⟨a, b, c⟩
    · refine ⟨⟨fun _ => ⟨⟨hok, b.1, b.2⟩, c⟩, fun _ => a⟩, fun _ => ?_, fun h => absurd a h⟩
      rw [d, hf]
    · refine ⟨⟨fun h => ?_, fun h => absurd ⟨⟨h.1.2.1, h.1.2.2⟩, h.2⟩ b⟩, fun h => ?_,
        fun _ => ⟨a, c⟩⟩
      · rw [a] at h; cases h
      · rw [a] at h; cases h

/-- C4, at a run in which everything succeeds (status 0) and at a run whose
authentication fails (status 1 after a diagnostic). -/
theorem C4_exit_status_witness :
    (main calmEnv).exit = 0 ∧ (main calmEnv).trace.any Event.isFatal = false ∧
    (main { calmEnv with authenticate := fun _ => some "bad cookie" }).exit = 1 ∧
    ∃ d, (main { calmEnv with authenticate := fun _ => some "bad cookie" }).trace.getLast?
      = some (.fatal d) :=
  ⟨by decide, (C4_exit_status calmEnv).2.1 (by decide),
    ((C4_exit_status { calmEnv with authenticate := fun _ => some "bad cookie" }).2.2
      (by decide)).1,
    ((C4_exit_status { calmEnv with authenticate := fun _ => some "bad cookie" }).2.2
      (by decide)).2⟩

/-- C5, as stated, fails: with `-l 70000`, and with a single destination
argument, the control port has been dialed and authenticated to before the
configuration error is diagnosed. -/
theorem C5_checks_follow_control_dial :
    (main { calmEnv with listen := 70000 }).trace
      = [.parseControlPortString "9051", .bulbDial "tcp" "127.0.0.1:9051",
          .authenticate "c00c1e", .fatal (.listenRange 70000)] ∧
    (main { calmEnv with argv := ["example.com"] }).trace
      = [.parseControlPortString "9051", .bulbDial "tcp" "127.0.0.1:9051",
          .authenticate "c00c1e", .osArgs, .fatal (.invalidArguments "torcat")] := by
  decide

/-- C5, amended: a malformed control-endpoint descriptor ends the process
with its diagnostic and status 1 before anything else is done.  A listen
port above 65535 and, in dial mode, a wrong number of arguments, an empty
host or a port that is not an integer end it with status 1 and their own
diagnostic right after the control port has been dialed and authenticated
to (and `os.Args` looked at, for the arguments); no run with such an error
has any listener, dialer, connection or relay activity; and such a
diagnostic is printed only in runs that have dialed and authenticated to the
control port first. -/
theorem C5_config_errors (e : Env) :
    (∀ err, e.parseControlPortString e.control = .error err →
      main e = ⟨[.parseControlPortString e.control, .fatal (.parseControl err)], 1⟩) ∧
    (∀ p a, e.parseControlPortString e.control = .ok (p, a) → e.bulbDial p a = none →
      e.authenticate e.cookie = none →
      (65535 < e.listen →
        main e = ⟨[.parseControlPortString e.control, .bulbDial p a, .authenticate e.cookie,
          .fatal (.listenRange e.listen)], 1⟩) ∧
      (e.listen = 0 → e.osArgs.length ≠ 3 →
        main e = ⟨[.parseControlPortString e.control, .bulbDial p a, .authenticate e.cookie,
          .osArgs, .fatal (.invalidArguments e.argv0)], 1⟩) ∧
      (e.listen = 0 → ∀ addr port, e.argv = [addr, port] → addr.length = 0 →
        main e = ⟨[.parseControlPortString e.control, .bulbDial p a, .authenticate e.cookie,
          .osArgs, .fatal .emptyDestination], 1⟩) ∧
      (e.listen = 0 → ∀ addr port err, e.argv = [addr, port] → addr.length ≠ 0 →
        atoi port = .error err →
        main e = ⟨[.parseControlPortString e.control, .bulbDial p a, .authenticate e.cookie,
          .osArgs, .fatal (.invalidPort port err)], 1⟩)) ∧
    ((65535 < e.listen ∨ (e.listen = 0 ∧ e.badArguments)) →
      (main e).trace.any Event.isSession = false ∧ (main e).exit = 1 ∧
        ∃ d, (main e).trace.getLast? = some (.fatal d)) ∧
    (∀ d, d.isRangeOrArguments = true → .fatal d ∈ (main e).trace →
      ∃ p a tail, e.parseControlPortString e.control = .ok (p, a) ∧ e.bulbDial p a = none ∧
        e.authenticate e.cookie = none ∧
        (main e).trace = .parseControlPortString e.control :: .bulbDial p a ::
          .authenticate e.cookie :: tail) := by
  refine ⟨?_, ?_, ?_, ?_⟩
  · intro err h
    unfold main
    rw [h]
    rfl
  · intro p a h1 h2 h3
    have hmain := main_past_setup e p a h1 h2 h3
    refine ⟨?_, ?_, ?_, ?_⟩
    · intro h
      rw [hmain, selectMode_range e _ h]
      rfl
    · intro h0 hlen
      rw [hmain, selectMode_dial e _ h0, dialMode_bad e _ _ (destination_count e hlen)]
      rfl
    · intro h0 addr port hargv hempty
      rw [hmain, selectMode_dial e _ h0,
        dialMode_bad e _ _ (destination_empty e addr port hargv hempty)]
      rfl
    · intro h0 addr port err hargv hne herr
      rw [hmain, selectMode_dial e _ h0,
        dialMode_bad e _ _ (destination_port e addr port err hargv hne herr)]
      rfl
  · intro h
    rcases main_setup e with ⟨_, hexit, hd, _, _, hs⟩ | ⟨_, tr, hmain, _, _, hs, _⟩
    · exact ⟨hs, hexit, hd⟩
    · rw [hmain]
      rcases h with h | ⟨h0, hbad⟩
      · rw [selectMode_range e tr h]
        exact ⟨by simp [fatal, hs, Event.isSession], rfl, _, fatal_last _ _⟩
      · obtain ⟨d, hd⟩ := destination_bad e hbad
        rw [selectMode_dial e tr h0, dialMode_bad e tr d hd]
        exact ⟨by simp [fatal, hs, Event.isSession], rfl, _, fatal_last _ _⟩
  · intro d hd hmem
    exact main_late_diag e d hd hmem

/-- C5 amended, at a control descriptor that does not parse, at `-l 70000`,
at one, at an empty and at a non-numeric destination argument. -/
theorem C5_config_errors_witness :
    main { calmEnv with parseControlPortString := fun _ => .error "invalid" }
      = ⟨[.parseControlPortString "9051", .fatal (.parseControl "invalid")], 1⟩ ∧
    main { calmEnv with listen := 70000 }
      = ⟨[.parseControlPortString "9051", .bulbDial "tcp" "127.0.0.1:9051",
          .authenticate "c00c1e", .fatal (.listenRange 70000)], 1⟩ ∧
    main { calmEnv with argv := ["example.com"] }
      = ⟨[.parseControlPortString "9051", .bulbDial "tcp" "127.0.0.1:9051",
          .authenticate "c00c1e", .osArgs, .fatal (.invalidArguments "torcat")], 1⟩ ∧
    main { calmEnv with argv := ["", "80"] }
      = ⟨[.parseControlPortString "9051", .bulbDial "tcp" "127.0.0.1:9051",
          .authenticate "c00c1e", .osArgs, .fatal .emptyDestination], 1⟩ ∧
    main { calmEnv with argv := ["example.com", "http"] }
      = ⟨[.parseControlPortString "9051", .bulbDial "tcp" "127.0.0.1:9051",
          .authenticate "c00c1e", .osArgs, .fatal (.invalidPort "http" .invalid)], 1⟩ ∧
    ((main { calmEnv with listen := 70000 }).trace.any Event.isSession = false ∧
      (main { calmEnv with listen := 70000 }).exit = 1 ∧
      ∃ d, (main { calmEnv with listen := 70000 }).trace.getLast? = some (.fatal d)) ∧
    ∃ p a tail, calmEnv.parseControlPortString "9051" = .ok (p, a) ∧
      calmEnv.bulbDial p a = none ∧ calmEnv.authenticate "c00c1e" = none ∧
      (main { calmEnv with argv := ["example.com", "99999999999999999999x"] }).trace
        = .parseControlPortString "9051" :: .bulbDial p a :: .authenticate "c00c1e" :: tail :=
  ⟨(C5_config_errors { calmEnv with parseControlPortString := fun _ => .error "invalid" }).1
      "invalid" rfl,
    ((C5_config_errors { calmEnv with listen := 70000 }).2.1 "tcp" "127.0.0.1:9051"
      (by decide) rfl rfl).1 (by decide),
    ((C5_config_errors { calmEnv with argv := ["example.com"] }).2.1 "tcp" "127.0.0.1:9051"
      (by decide) rfl rfl).2.1 rfl (by decide),
    ((C5_config_errors { calmEnv with argv := ["", "80"] }).2.1 "tcp" "127.0.0.1:9051"
      (by decide) rfl rfl).2.2.1 rfl "" "80" rfl (by decide),
    ((C5_config_errors { calmEnv with argv := ["example.com", "http"] }).2.1 "tcp"
      "127.0.0.1:9051" (by decide) rfl rfl).2.2.2 rfl "example.com" "http" .invalid rfl
      (by decide) (by decide),
    (C5_config_errors { calmEnv with listen := 70000 }).2.2.1 (Or.inl (by decide)),
    (C5_config_errors { calmEnv with argv := ["example.com", "99999999999999999999x"] }).2.2.2
      (.invalidPort "99999999999999999999x" .range) rfl (by decide)⟩

/-- C6, the code at the failing inputs.  The command line `torcat -control
9051` has no positional argument left after the flags, yet `main` takes the
flag and its value for host and port and dials `-control:9051`; the command
line `torcat -control 9051 example.com 80` has exactly two positional
arguments, a host and an integer port, yet `main` rejects it as invalid
arguments before `Dialer`. -/
theorem C6_flags_counted_as_arguments (parseUint : String → Option Nat) :
    init parseUint ["-control", "9051"] = .ok ⟨"9051", 0, []⟩ ∧
    (process parseUint { calmEnv with argv := ["-control", "9051"] }).trace
      = [.parseControlPortString "9051", .bulbDial "tcp" "127.0.0.1:9051",
          .authenticate "c00c1e", .osArgs, .dialer, .dial "-control:9051", Event.runIO,
          .close .conn, .close .torctl] ∧
    init parseUint ["-control", "9051", "example.com", "80"]
      = .ok ⟨"9051", 0, ["example.com", "80"]⟩ ∧
    (process parseUint { calmEnv with argv := ["-control", "9051", "example.com", "80"] }).trace
      = [.parseControlPortString "9051", .bulbDial "tcp" "127.0.0.1:9051",
          .authenticate "c00c1e", .osArgs, .fatal (.invalidArguments "torcat")] := by
  exact ⟨rfl, rfl, rfl, rfl⟩

/-- C7, the code at the failing input: the dial of `example.com:80` fails
with `host unreachable`; the process exits with status 1 without starting
the relay, and the diagnostic is built from the error, not from the
destination, which does not occur in it. -/
theorem C7_diagnostic_omits_destination :
    (main { calmEnv with dial := fun _ => some "host unreachable" }).trace
      = [.parseControlPortString "9051", .bulbDial "tcp" "127.0.0.1:9051",
          .authenticate "c00c1e", .osArgs, .dialer, .dial "example.com:80",
          .fatal (.connectionFailed "host unreachable")] ∧
    (main { calmEnv with dial := fun _ => some "host unreachable" }).exit = 1 ∧
    (Diag.connectionFailed "host unreachable").message
      = "Connection to host unreachable failed" ∧
    occursIn "example.com:80" (Diag.connectionFailed "host unreachable").message = false := by
  decide

/-- C8, the code at the failing input: when the relay outcome is an error,
in dial mode and in listen mode alike, `main` prints the diagnostic and the
process exits with status 1; no `Close` is run.  When the outcome is `nil`
the deferred `Close` calls run: the connection, the listener, the control
connection. -/
theorem C8_fatal_skips_close :
    (main { calmEnv with relay := some "connection reset by peer" }).trace
      = [.parseControlPortString "9051", .bulbDial "tcp" "127.0.0.1:9051",
          .authenticate "c00c1e", .osArgs, .dialer, .dial "example.com:80", Event.runIO,
          .fatal (.conversation "connection reset by peer")] ∧
    (main { calmEnv with relay := some "connection reset by peer" }).trace.any Event.isClose
      = false ∧
    (main { calmEnv with
        listen := 8080
        relay := some "connection reset by peer" }).trace
      = [.parseControlPortString "9051", .bulbDial "tcp" "127.0.0.1:9051",
          .authenticate "c00c1e", .generateKey, .onionAddr, .stderr "facebookcorewwwi",
          .stderr ".onion\n", .newListener 8080, .accept, Event.runIO,
          .fatal (.conversation "connection reset by peer")] ∧
    (main { calmEnv with
        listen := 8080
        relay := some "connection reset by peer" }).trace.any Event.isClose = false ∧
    (main { calmEnv with listen := 8080 }).trace
      = [.parseControlPortString "9051", .bulbDial "tcp" "127.0.0.1:9051",
          .authenticate "c00c1e", .generateKey, .onionAddr, .stderr "facebookcorewwwi",
          .stderr ".onion\n", .newListener 8080, .accept, Event.runIO,
          .close .conn, .close .listener, .close .torctl] := by
  decide

/-- C9, as stated, fails: the stream is at end-of-stream, the download
returns and sends and `main` receives its result; the upload, which had done
nothing, then reads from standard input and writes to the stream. -/
theorem C9_loser_keeps_copying :
    (exec okSinks ( runIO eofSource twoChunks)
      [.io .download, .send .download, .recv]).received = some none ∧
    (exec okSinks ( runIO eofSource twoChunks)
      [.io .download, .send .download, .recv]).upload.ops = 0 ∧
    (exec okSinks ( runIO eofSource twoChunks)
      [.io .download, .send .download, .recv, .io .upload]).upload.ops = 2 ∧
    (exec okSinks ( runIO eofSource twoChunks)
      [.io .download, .send .download, .recv, .io .upload]).upload.out = [104, 105] := by
  decide

/-- C9, amended: once `main` has received the outcome, the task it came from
(the first to send, which had returned from `io.Copy` before) makes no
further read or write, whatever happens next; and once the process has
terminated nothing changes at all. -/
theorem C9_winner_stops (io : Sinks) (conn stdin : List ReadResult)
    (sched more : List Action) (o : Option GoError)
    (h : (exec io ( runIO conn stdin) sched).received = some o) :
    (∃ t rest, (exec io ( runIO conn stdin) sched).sent = t :: rest ∧
      ((exec io ( runIO conn stdin) sched).task t).ret = some o ∧
      (exec io ( runIO conn stdin) (sched ++ more)).task t
        = (exec io ( runIO conn stdin) sched).task t) ∧
    ((exec io ( runIO conn stdin) sched).exited = true →
      exec io ( runIO conn stdin) (sched ++ more) = exec io ( runIO conn stdin) sched) := by
  have hreach := reach_exec io conn stdin sched
  obtain ⟨t, rest, hf, ht⟩ := received_first io conn stdin _ hreach o h
  constructor
  · refine ⟨t, rest, hf, ht, ?_⟩
    rw [exec_append]
    exact exec_task_returned io _ more t o ht
  · intro hex
    rw [exec_append]
    exact exec_exited io _ more hex

/-- C9 amended, at the run in which the download wins and the upload goes on. -/
theorem C9_winner_stops_witness :
    (exec okSinks ( runIO eofSource twoChunks)
      [.io .download, .send .download, .recv]).received = some none ∧
    ∃ t rest, (exec okSinks ( runIO eofSource twoChunks)
        [.io .download, .send .download, .recv]).sent = t :: rest ∧
      ((exec okSinks ( runIO eofSource twoChunks)
        [.io .download, .send .download, .recv]).task t).ret = some none ∧
      (exec okSinks ( runIO eofSource twoChunks)
          ([.io .download, .send .download, .recv]
            ++ [.io .upload, .io .download, .exit, .io .upload])).task t
        = (exec okSinks ( runIO eofSource twoChunks)
          [.io .download, .send .download, .recv]).task t :=
  ⟨by decide,
    (C9_winner_stops okSinks eofSource twoChunks [.io .download, .send .download, .recv]
      [.io .upload, .io .download, .exit, .io .upload] none (by decide)).1⟩

/-- C10: when the reads on the stream deliver the chunks `chunks` and then
end-of-stream (the last read may still carry bytes), and every write to
standard output succeeds in full, the download task has written exactly the
chunks concatenated in order and returns `nil`; the same for the upload task
from standard input to the stream. -/
theorem C10_copy_is_faithful (io : Sinks) (chunks : List (List Byte)) (last : List Byte) :
    ((∀ i p, io.stdout i p = ⟨p.length, none⟩) →
      (downloadTask io (chunks.map (fun d => ⟨d, none⟩) ++ [⟨last, some .eof⟩])).out
          = chunks.flatten ++ last ∧
        (downloadTask io (chunks.map (fun d => ⟨d, none⟩) ++ [⟨last, some .eof⟩])).ret
          = some none) ∧
    ((∀ i p, io.conn i p = ⟨p.length, none⟩) →
      (uploadTask io (chunks.map (fun d => ⟨d, none⟩) ++ [⟨last, some .eof⟩])).out
          = chunks.flatten ++ last ∧
        (uploadTask io (chunks.map (fun d => ⟨d, none⟩) ++ [⟨last, some .eof⟩])).ret
          = some none) := by
  constructor
  · intro hw
    obtain ⟨nw, ops, h⟩ := ioCopy_okWrites io.stdout hw chunks last .eof
    rw [downloadTask, h, afterRead_eof]
    exact ⟨rfl, rfl⟩
  · intro hw
    obtain ⟨nw, ops, h⟩ := ioCopy_okWrites io.conn hw chunks last .eof
    rw [uploadTask, h, afterRead_eof]
    exact ⟨rfl, rfl⟩

/-- C10, at the stream that delivers `hello` and a newline in two reads. -/
theorem C10_copy_is_faithful_witness :
    ((downloadTask okSinks ([[104, 101, 108], [108, 111, 10]].map (fun d => ⟨d, none⟩)
        ++ [⟨[], some .eof⟩])).out = [[104, 101, 108], [108, 111, 10]].flatten ++ [] ∧
      (downloadTask okSinks ([[104, 101, 108], [108, 111, 10]].map (fun d => ⟨d, none⟩)
        ++ [⟨[], some .eof⟩])).ret = some none) ∧
    ((uploadTask okSinks ([[104, 101, 108], [108, 111, 10]].map (fun d => ⟨d, none⟩)
        ++ [⟨[], some .eof⟩])).out = [[104, 101, 108], [108, 111, 10]].flatten ++ [] ∧
      (uploadTask okSinks ([[104, 101, 108], [108, 111, 10]].map (fun d => ⟨d, none⟩)
        ++ [⟨[], some .eof⟩])).ret = some none) :=
  ⟨(C10_copy_is_faithful okSinks [[104, 101, 108], [108, 111, 10]] []).1 (fun _ _ => rfl),
    (C10_copy_is_faithful okSinks [[104, 101, 108], [108, 111, 10]] []).2 (fun _ _ => rfl)⟩

end Torcat
